import Mathlib

/-!
Package `theme` of gotraceui (theme/theme.go).

A shallow embedding of the widget composers of `theme/theme.go` and the proofs of the
properties stated about them.

Conventions of the embedding.

* Go `int` coordinates (`image.Point`) are `Int`; `uint32` and `uint8` values are `Nat`
  with the truncation written out (`% 2 ^ 8`).
* Go `float32` is `F32`: NaN, the two infinities and signed finite dyadic values, with
  round-to-nearest-even conversion and multiplication and IEEE comparisons.
* The drawing sink `gtx.Ops` is a list of `Op`, threaded through every composer together
  with the state that a caller-supplied widget may touch (`World`).
* The toolkit primitives that the package calls but does not define (label measurement,
  the metric converter, the clickable toggle, `Constraints.Constrain`) are modelled by
  their interface contract; each such definition says so.
* `rtrace.StartRegion(...).End()` only emits tracing events and is left out.
-/

namespace theme

/-! ## Colours -/

/-- The colour type `color.NRGBA`: four `uint8` channels. -/
structure NRGBA where
  R : Nat
  G : Nat
  B : Nat
  A : Nat
  deriving DecidableEq, Repr

/-- Go conversion `uint8(x)`. -/
def uint8 (x : Nat) : Nat := x % 2 ^ 8

/-- Source `rgba(c uint32) color.NRGBA`; in Go `c >> 8 & 0xFF` parses as `(c >> 8) & 0xFF`. -/
def rgba (c : Nat) : NRGBA :=
  { A := uint8 (c &&& 0xFF)
    B := uint8 (c >>> 8 &&& 0xFF)
    G := uint8 (c >>> 16 &&& 0xFF)
    R := uint8 (c >>> 24 &&& 0xFF) }

/-- The packing `R<<24 | G<<16 | B<<8 | A` of a colour into a 32-bit word. -/
def pack (k : NRGBA) : Nat :=
  k.R <<< 24 ||| k.G <<< 16 ||| k.B <<< 8 ||| k.A

/-- Source `type Palette struct`. -/
structure Palette where
  Background : NRGBA
  Foreground : NRGBA
  Link : NRGBA
  WindowBorder : NRGBA
  WindowBackground : NRGBA
  deriving DecidableEq, Repr

/-- Source `var DefaultPalette`. -/
def DefaultPalette : Palette :=
  { Background := rgba 0xFFFFEAFF
    Foreground := rgba 0x000000FF
    Link := rgba 0x0000FFFF
    WindowBorder := rgba 0x000000FF
    WindowBackground := rgba 0xEEFFEEFF }

/-- The five colour roles of a palette. -/
def Palette.colors (p : Palette) : List NRGBA :=
  [p.Background, p.Foreground, p.Link, p.WindowBorder, p.WindowBackground]

/-! ## float32 -/

/-- A Go `float32` (IEEE-754 binary32): NaN, a signed infinity, or the signed finite
value `(-1)^neg * m * 2^e`. -/
inductive F32 where
  | nan
  | inf (neg : Bool)
  | fin (neg : Bool) (m : Nat) (e : Int)
  deriving DecidableEq, Repr

namespace F32

/-- Number of binary digits of `n`, by halving at most `fuel` times. -/
def bitLenAux : Nat → Nat → Nat
  | 0, _ => 0
  | fuel + 1, n => if n = 0 then 0 else bitLenAux fuel (n / 2) + 1

/-- Number of binary digits of `n` (0 for 0). -/
def bitLen (n : Nat) : Nat := bitLenAux n n

/-- The integer nearest to `m / 2^k`, ties to even. -/
def shiftRNE (m k : Nat) : Nat :=
  let q := m / 2 ^ k
  let r := m % 2 ^ k
  if 2 * r < 2 ^ k then q
  else if 2 ^ k < 2 * r then q + 1
  else if q % 2 = 0 then q else q + 1

/-- Rounding of the exact value `(-1)^neg * m * 2^e` to binary32, round-to-nearest-even:
24 significant bits, smallest unit `2^-149`, overflow to infinity from `2^128`.
`q` is the exponent of the unit in the last place; a rounded significand `m1` is at most
`2^24`, so `m1 * 2^q` reaches `2^128` only if `104 ≤ q` and `2^24 ≤ m1 * 2^(q-104)`. -/
def round (neg : Bool) (m : Nat) (e : Int) : F32 :=
  if m = 0 then .fin neg 0 0
  else
    let top : Int := e + bitLen m
    let q : Int := if top - 24 ≥ -149 then top - 24 else -149
    if q ≤ e then
      if top ≤ 128 then .fin neg m e else .inf neg
    else
      let m1 := shiftRNE m (q - e).toNat
      if 104 ≤ q ∧ 2 ^ 24 ≤ m1 * 2 ^ (q - 104).toNat then .inf neg else .fin neg m1 q

/-- Go conversion `float32(i)` of an `int`. -/
def ofInt (i : Int) : F32 := round (decide (i < 0)) i.natAbs 0

/-- The constant `0`. -/
def zero : F32 := .fin false 0 0

/-- The constant `1`. -/
def one : F32 := .fin false 1 0

/-- The signed integer `(-1)^neg * m * 2^(e - lo)`, for `lo ≤ e`. -/
def scaled (neg : Bool) (m : Nat) (e lo : Int) : Int :=
  (if neg then -(m : Int) else (m : Int)) * 2 ^ (e - lo).toNat

/-- Go `a <= b` on float32: false when either side is NaN. -/
def le : F32 → F32 → Bool
  | .nan, _ => false
  | _, .nan => false
  | .inf s, .inf t => s || !t
  | .inf s, .fin _ _ _ => s
  | .fin _ _ _, .inf t => !t
  | .fin s m e, .fin t n k =>
    decide (scaled s m e (min e k) ≤ scaled t n k (min e k))

/-- Go `a >= b` on float32. -/
def ge (a b : F32) : Bool := le b a

/-- Go `a == b` on float32: false when either side is NaN, and `-0 == +0`. -/
def eq : F32 → F32 → Bool
  | .nan, _ => false
  | _, .nan => false
  | .inf s, .inf t => s == t
  | .inf _, .fin _ _ _ => false
  | .fin _ _ _, .inf _ => false
  | .fin s m e, .fin t n k =>
    decide (scaled s m e (min e k) = scaled t n k (min e k))

/-- Go `a * b` on float32. -/
def mul : F32 → F32 → F32
  | .nan, _ => .nan
  | _, .nan => .nan
  | .inf s, .inf t => .inf (xor s t)
  | .inf s, .fin t n _ => if n = 0 then .nan else .inf (xor s t)
  | .fin s m _, .inf t => if m = 0 then .nan else .inf (xor s t)
  | .fin s m e, .fin t n k => round (xor s t) (m * n) (e + k)

/-- The value is an integer: Go `x == float32(math.Round(float64(x)))` for a finite `x`. -/
def isInteger : F32 → Bool
  | .fin _ m e => decide (0 ≤ e) || decide (m % 2 ^ (-e).toNat = 0)
  | _ => false

end F32

/-- Source `clamp1`: "clamp1 limits v to range [0..1]". -/
def clamp1 (v : F32) : F32 :=
  if F32.ge v F32.one then F32.one
  else if F32.le v F32.zero then F32.zero
  else v

/-- Source `max(a, b int) int`. -/
def max (a b : Int) : Int :=
  if a ≥ b then a else b

/-! ## Geometry, drawing operations and layout types -/

/-- The type `image.Point`. -/
structure Point where
  X : Int
  Y : Int
  deriving DecidableEq, Repr

/-- The type `f32.Point`. -/
structure FPoint where
  X : F32
  Y : F32
  deriving DecidableEq, Repr

/-- Function `image.Pt`. -/
def imagePt (x y : Int) : Point := { X := x, Y := y }

/-- Function `f32.Pt`. -/
def f32Pt (x y : F32) : FPoint := { X := x, Y := y }

/-- A command of a `clip.Path` under construction. -/
inductive PathCmd where
  | MoveTo (pt : FPoint)
  | LineTo (pt : FPoint)
  deriving DecidableEq, Repr

/-- The point a path command moves the pen to. -/
def PathCmd.target : PathCmd → FPoint
  | .MoveTo pt => pt
  | .LineTo pt => pt

/-- A `clip.Path` being built: the commands issued since `Begin`. -/
structure Path where
  cmds : List PathCmd
  deriving DecidableEq, Repr

/-- Method `(*clip.Path).MoveTo`. -/
def Path.MoveTo (p : Path) (pt : FPoint) : Path := { cmds := p.cmds ++ [PathCmd.MoveTo pt] }

/-- Method `(*clip.Path).LineTo`. -/
def Path.LineTo (p : Path) (pt : FPoint) : Path := { cmds := p.cmds ++ [PathCmd.LineTo pt] }

/-- A clip area `clip.Op`: an integer rectangle (`clip.Rect{Min, Max}.Op()`) or the
outline of a path (`clip.Outline{Path}.Op()`). -/
inductive ClipOp where
  | Rect (Min Max : Point)
  | Outline (path : Path)
  deriving DecidableEq, Repr

/-- The literal `clip.Rect{Min: ..., Max: ...}`; an omitted corner is the zero point. -/
structure ClipRect where
  Min : Point := { X := 0, Y := 0 }
  Max : Point := { X := 0, Y := 0 }
  deriving DecidableEq, Repr

/-- Method `clip.Rect.Op`. -/
def ClipRect.Op (r : ClipRect) : ClipOp := ClipOp.Rect r.Min r.Max

/-- An operation added to the drawing sink `gtx.Ops`, one constructor per toolkit call
that this package makes. -/
inductive Op where
  /-- The call `paint.ColorOp{Color: c}.Add(ops)`. -/
  | ColorOp (c : NRGBA)
  /-- The call `pointer.CursorPointer.Add(ops)`. -/
  | CursorPointer
  /-- The call `paint.FillShape(ops, c, shape)`: fill `shape` with the colour `c`. -/
  | FillShape (c : NRGBA) (shape : ClipOp)
  /-- The call `op.Offset(off).Push(ops)`. -/
  | OffsetPush (off : Point)
  /-- The `Pop` of an offset. -/
  | OffsetPop
  /-- The call `clip.Rect{...}.Push(ops)`. -/
  | ClipPush (shape : ClipOp)
  /-- The `Pop` of a clip. -/
  | ClipPop
  /-- The glyphs that the toolkit's label layout paints for a string. -/
  | Text (s : String)
  /-- The call `call.Add(ops)` of a recorded sequence: the operations added between
  `op.Record` and `Stop`, replayed at this place. -/
  | Call (body : List Op)

/-- The drawing sink `op.Ops`. -/
abbrev Ops := List Op

/-- The type `layout.Constraints`. -/
structure Constraints where
  Min : Point
  Max : Point
  deriving DecidableEq, Repr

/-- The type `layout.Dimensions`. -/
structure Dimensions where
  Size : Point
  Baseline : Int := 0
  deriving DecidableEq, Repr

/-- Toolkit `layout.Constraints.Constrain`: "Constrain a size so each dimension is in the
range [min;max]"; the minimum is applied first, then the maximum. -/
def Constraints.Constrain (c : Constraints) (size : Point) : Point :=
  let size := if size.X < c.Min.X then { size with X := c.Min.X } else size
  let size := if size.Y < c.Min.Y then { size with Y := c.Min.Y } else size
  let size := if size.X > c.Max.X then { size with X := c.Max.X } else size
  let size := if size.Y > c.Max.Y then { size with Y := c.Max.Y } else size
  size

/-- Toolkit `layout.Exact`. -/
def Exact (size : Point) : Constraints := { Min := size, Max := size }

/-- Toolkit `unit.Metric`, the converter from device-independent units to device pixels. -/
structure Metric where
  Dp : F32 → Int
  SpToDp : F32 → F32

/-- The type `layout.Context` without its sink, which is passed separately. -/
structure Context where
  Constraints : Constraints
  Metric : Metric

/-- Method `gtx.Dp`. -/
def Context.Dp (gtx : Context) (v : F32) : Int := gtx.Metric.Dp v

/-- A `layout.Widget`: it reads the context, adds to the sink and reports dimensions. -/
abbrev LWidget := Context → Ops → Dimensions × Ops

/-- Toolkit `text.Font`; only the weight is set by this package. -/
structure Font where
  Bold : Bool := false
  deriving DecidableEq, Repr

/-- Toolkit `widget.Label`; `MaxLines = 0` means unlimited, `Middle` is `Alignment: text.Middle`. -/
structure Label where
  MaxLines : Nat := 0
  Middle : Bool := false
  deriving DecidableEq, Repr

/-- Toolkit `text.Shaper`: measures a string laid out as a label under given constraints. -/
structure Shaper where
  measure : Label → Font → F32 → String → Constraints → Dimensions

/-- Toolkit `widget.Label.Layout`: reports the measured dimensions and adds the glyphs. -/
def Label.Layout (l : Label) (gtx : Context) (s : Shaper) (font : Font) (size : F32)
    (txt : String) : Ops → Dimensions × Ops :=
  fun ops => (s.measure l font size txt gtx.Constraints, ops ++ [Op.Text txt])

/-- Source `type Theme struct`. -/
structure Theme where
  Shaper : Shaper
  Palette : Palette
  TextSize : F32
  TextSizeLarge : F32
  WindowPadding : F32
  WindowBorder : F32

/-- Source `NewTheme`; the shaper built from the font collection is the argument. -/
def NewTheme (shaper : Shaper) : Theme :=
  { Palette := DefaultPalette
    Shaper := shaper
    TextSize := F32.ofInt 12
    TextSizeLarge := F32.ofInt 14
    WindowPadding := F32.ofInt 2
    WindowBorder := F32.ofInt 1 }

/-- The part of `type Window struct` (window.go) that this file reads. -/
structure Window where
  Theme : Theme

/-- Border wrapper of the `widget` package (`Border`, `Bordered`): colour and width. -/
structure Border where
  Color : NRGBA
  Width : F32

/-- The layout method of a border wrapper, which lives outside these sources: it is an
argument of every composer that uses one. -/
abbrev BorderLayout := Border → Context → LWidget → Ops → Dimensions × Ops

/-! ## frect -/

/-- Source `type frect struct`. -/
structure frect where
  Min : FPoint := { X := F32.zero, Y := F32.zero }
  Max : FPoint := { X := F32.zero, Y := F32.zero }
  deriving DecidableEq, Repr

/-- Source `frect.IntoPath`. -/
def frect.IntoPath (r : frect) (p : Path) : Path :=
  let p := p.MoveTo r.Min
  let p := p.LineTo (f32Pt r.Max.X r.Min.Y)
  let p := p.LineTo r.Max
  let p := p.LineTo (f32Pt r.Min.X r.Max.Y)
  let p := p.LineTo r.Min
  p

/-- Source `frect.Path`: a fresh path (`p.Begin`), filled by `IntoPath`, then `p.End()`. -/
def frect.Path (r : frect) : Path :=
  r.IntoPath { cmds := [] }

/-- Source `frect.Op`. -/
def frect.Op (r : frect) : ClipOp :=
  ClipOp.Outline r.Path

/-! ## Persistent widget state of the toolkit -/

/-- Toolkit `widget.Bool`: the persistent value of a toggle. -/
structure WidgetBool where
  Value : Bool
  deriving DecidableEq, Repr

/-- The clicks the toolkit delivers to a toggle in one frame: those it consumes before
it lays out the wrapped widget and those it consumes afterwards. -/
structure Clicks where
  before : Nat := 0
  after : Nat := 0
  deriving DecidableEq, Repr

/-- One `b.Value = !b.Value` per click. -/
def WidgetBool.click (b : WidgetBool) (n : Nat) : WidgetBool :=
  { Value := if n % 2 = 0 then b.Value else !b.Value }

/-- Toolkit `widget.Bool.Layout`: lays out the wrapped widget with the context it was
given, returns the dimensions the wrapped widget reported, and flips the value once per
click. The wrapped widget sees the value current when it runs. -/
def WidgetBool.Layout (b : WidgetBool) (ev : Clicks) (gtx : Context)
    (w : WidgetBool → LWidget) (ops : Ops) : Dimensions × WidgetBool × Ops :=
  let b := b.click ev.before
  let (dims, ops) := w b gtx ops
  (dims, b.click ev.after, ops)

/-- Toolkit `widget.Clickable`, reduced to what `Pressed()` reports. -/
structure Clickable where
  pressed : Bool
  deriving DecidableEq, Repr

/-- Method `widget.Clickable.Pressed`. -/
def Clickable.Pressed (b : Clickable) : Bool := b.pressed

/-- Everything a caller-supplied widget can change: the drawing sink and the state of
its own (`user`), such as a counter or a timer it updates when it is laid out. -/
structure World (π : Type) where
  ops : Ops
  user : π

/-- Package type `Widget`, `func(win *Window, gtx layout.Context) layout.Dimensions`. -/
abbrev Widget (π : Type) := Window → Context → World π → Dimensions × World π

/-! ## ProgressBar -/

/-- Source `type ProgressBarStyle struct`. -/
structure ProgressBarStyle where
  ForegroundColor : NRGBA
  BackgroundColor : NRGBA
  BorderWidth : F32
  Progress : F32

/-- Source `ProgressBar`. -/
def ProgressBar (_th : Theme) (progress : F32) : ProgressBarStyle :=
  { ForegroundColor := rgba 0x478847FF
    BackgroundColor := rgba 0
    BorderWidth := F32.ofInt 1
    Progress := progress }

/-- The foreground rectangle built in `ProgressBarStyle.Layout`:
`frect{Max: f32.Pt(float32(gtx.Constraints.Min.X)*p.Progress, float32(gtx.Constraints.Min.Y))}`. -/
def ProgressBarStyle.fg (p : ProgressBarStyle) (gtx : Context) : frect :=
  { Max := f32Pt (F32.mul (F32.ofInt gtx.Constraints.Min.X) p.Progress)
      (F32.ofInt gtx.Constraints.Min.Y) }

/-- The function literal that `ProgressBarStyle.Layout` hands to the border wrapper. -/
def ProgressBarStyle.Layout.func1 (p : ProgressBarStyle) : LWidget := fun gtx ops =>
  let bg := ({ Max := gtx.Constraints.Min } : ClipRect).Op
  let ops := ops ++ [Op.FillShape p.BackgroundColor bg]
  let fg := (p.fg gtx).Op
  let ops := ops ++ [Op.FillShape p.ForegroundColor fg]
  ({ Size := gtx.Constraints.Min }, ops)

/-- Source `ProgressBarStyle.Layout`. -/
def ProgressBarStyle.Layout (p : ProgressBarStyle) (border : BorderLayout) (gtx : Context) :
    Ops → Dimensions × Ops :=
  border { Color := p.ForegroundColor, Width := p.BorderWidth } gtx
    (ProgressBarStyle.Layout.func1 p)

/-! ## CheckBox -/

/-- Source `type CheckBoxStyle struct`. -/
structure CheckBoxStyle where
  Checkbox : WidgetBool
  Label : String
  TextSize : F32
  ForegroundColor : NRGBA
  BackgroundColor : NRGBA
  TextColor : NRGBA

/-- Source `CheckBox`. -/
def CheckBox (checkbox : WidgetBool) (label : String) : CheckBoxStyle :=
  { Checkbox := checkbox
    Label := label
    TextColor := rgba 0x000000FF
    ForegroundColor := rgba 0x000000FF
    BackgroundColor := rgba 0
    TextSize := F32.ofInt 12 }

/-- The padding of the inset square in `CheckBoxStyle.Layout`; Go `/` on `int` truncates. -/
def CheckBoxStyle.padding (gtx : Context) : Int :=
  let padding := Int.tdiv gtx.Constraints.Min.X 4
  let padding := if padding = 0 then gtx.Dp (F32.ofInt 1) else padding
  padding

/-- The inset square `clip.Rect{Min: image.Pt(minx, miny), Max: image.Pt(maxx, maxy)}`
drawn by `CheckBoxStyle.Layout` when the toggle is true. -/
def CheckBoxStyle.inset (gtx : Context) : ClipRect :=
  let padding := CheckBoxStyle.padding gtx
  let minx := padding
  let miny := minx
  let maxx := gtx.Constraints.Min.X - padding
  let maxy := maxx
  { Min := imagePt minx miny, Max := imagePt maxx maxy }

/-- The function literal that `CheckBoxStyle.Layout` hands to the border wrapper of the
indicator; `c.Checkbox` is the toggle as it is when the literal runs. -/
def CheckBoxStyle.Layout.func1_1_1 (c : CheckBoxStyle) : LWidget := fun gtx ops =>
  let ops := ops ++
    [Op.FillShape c.BackgroundColor ({ Max := gtx.Constraints.Min } : ClipRect).Op]
  let ops :=
    if c.Checkbox.Value then
      ops ++ [Op.FillShape c.ForegroundColor (CheckBoxStyle.inset gtx).Op]
    else ops
  ({ Size := gtx.Constraints.Min }, ops)

/-- The first rigid child of the flex row in `CheckBoxStyle.Layout`: the indicator. -/
def CheckBoxStyle.Layout.func1_1 (c : CheckBoxStyle) (border : BorderLayout) : LWidget :=
  fun gtx ops =>
  let sizeDp := gtx.Metric.SpToDp c.TextSize
  let sizePx := gtx.Dp sizeDp
  let ngtx := { gtx with Constraints := Exact (imagePt sizePx sizePx) }
  border { Color := c.ForegroundColor, Width := F32.ofInt 1 } ngtx
    (CheckBoxStyle.Layout.func1_1_1 c) ops

/-! ## Foldable -/

/-- Source `type Foldable struct`. -/
structure Foldable where
  Title : String
  Closed : WidgetBool
  deriving DecidableEq, Repr

/-- The function literal that `Foldable.Layout` hands to `f.Closed.Layout`: the title row.
`closed` is `f.Closed` as it is when the literal runs. -/
def Foldable.Layout.func1 (f : Foldable) (win : Window) (closed : WidgetBool) : LWidget :=
  fun gtx ops =>
  let l := if closed.Value then "[C] " ++ f.Title else "[O] " ++ f.Title
  let gtx := { gtx with
    Constraints := { gtx.Constraints with Min := { gtx.Constraints.Min with Y := 0 } } }
  let ops := ops ++ [Op.ColorOp win.Theme.Palette.Foreground]
  let ops := ops ++ [Op.CursorPointer]
  Label.Layout { MaxLines := 1 } gtx win.Theme.Shaper { Bold := true } win.Theme.TextSize l ops

/-- Source `Foldable.Layout`. The locals `gtx` and `size` that the `if` block assigns are
returned from it, and the deferred `Pop` runs last. -/
def Foldable.Layout {π : Type} (f : Foldable) (ev : Clicks) (win : Window) (gtx : Context)
    (contents : Widget π) (world : World π) : Dimensions × Foldable × World π :=
  let (dims, closed, ops) := f.Closed.Layout ev gtx (Foldable.Layout.func1 f win) world.ops
  let f := { f with Closed := closed }
  let world := { world with ops := ops }
  let size := dims.Size
  let (gtx, size, world, deferred) :=
    if !f.Closed.Value then
      let world := { world with ops := world.ops ++ [Op.OffsetPush (imagePt 0 size.Y)] }
      let gtx := { gtx with
        Constraints := { gtx.Constraints with
          Max := { gtx.Constraints.Max with Y := gtx.Constraints.Max.Y - size.Y } } }
      let (dims, world) := contents win gtx world
      let max := fun (a b : Int) => if a ≥ b then a else b
      let size := { size with X := max size.X dims.Size.X }
      let size := { size with Y := size.Y + dims.Size.Y }
      (gtx, size, world, [Op.OffsetPop])
    else
      (gtx, size, world, [])
  let size := gtx.Constraints.Constrain size
  ({ Size := size }, f, { world with ops := world.ops ++ deferred })

/-! ## Tooltip and BorderedText -/

/-- The function literal that `BorderedText` hands to the border wrapper. The operations
between `op.Record` and `macro.Stop()` are collected apart and come back as one call. -/
def BorderedText.func1 (win : Window) (s : String) : LWidget := fun gtx ops =>
  let ops := ops ++ [Op.ClipPush ({ Max := gtx.Constraints.Max } : ClipRect).Op]
  let gtx := { gtx with Constraints := { gtx.Constraints with Min := imagePt 0 0 } }
  let padding := gtx.Dp win.Theme.WindowPadding
  let recorded : Ops := []
  let recorded := recorded ++ [Op.ColorOp win.Theme.Palette.Foreground]
  let (dims, recorded) :=
    Label.Layout {} gtx win.Theme.Shaper {} win.Theme.TextSize s recorded
  let call := Op.Call recorded
  let total : ClipRect :=
    { Min := imagePt 0 0
      Max := imagePt (dims.Size.X + 2 * padding) (dims.Size.Y + 2 * padding) }
  let ops := ops ++ [Op.FillShape win.Theme.Palette.WindowBackground total.Op]
  let ops := ops ++ [Op.OffsetPush (imagePt padding padding)]
  let ops := ops ++ [call]
  let ops := ops ++ [Op.OffsetPop]
  ({ Baseline := dims.Baseline, Size := total.Max }, ops ++ [Op.ClipPop])

/-- Source `BorderedText`. -/
def BorderedText (bordered : BorderLayout) (win : Window) (gtx : Context) (s : String) :
    Ops → Dimensions × Ops :=
  bordered { Color := win.Theme.Palette.WindowBorder, Width := win.Theme.WindowBorder } gtx
    (BorderedText.func1 win s)

/-- Source `Tooltip.Layout`. -/
def Tooltip.Layout (bordered : BorderLayout) (win : Window) (gtx : Context) (l : String) :
    Ops → Dimensions × Ops :=
  BorderedText bordered win gtx l

/-! ## Button -/

/-- Source `type ButtonStyle struct`. -/
structure ButtonStyle where
  Text : String
  Button : Clickable
  deriving DecidableEq, Repr

/-- Source `Button`. -/
def Button (button : Clickable) (txt : String) : ButtonStyle :=
  { Text := txt, Button := button }

/-- The expanded layer of the stack in `ButtonStyle.Layout`: the background. -/
def ButtonStyle.Layout.func1_1_1 (b : ButtonStyle) : LWidget := fun gtx ops =>
  let ops :=
    if b.Button.Pressed then
      ops ++ [Op.FillShape (rgba 0xFFFF00FF) ({ Max := gtx.Constraints.Min } : ClipRect).Op]
    else
      ops ++ [Op.FillShape (rgba 0xFFFFFFFF) ({ Max := gtx.Constraints.Min } : ClipRect).Op]
  ({ Size := gtx.Constraints.Min }, ops)

/-- The stacked layer of the stack in `ButtonStyle.Layout`: the label. -/
def ButtonStyle.Layout.func1_1_2 (b : ButtonStyle) (win : Window) : LWidget := fun gtx ops =>
  let ops := ops ++ [Op.ColorOp (rgba 0x000000FF)]
  Label.Layout { Middle := true } gtx win.Theme.Shaper {} (F32.ofInt 12) b.Text ops

/-! ## Predicates and sample inputs used in the statements -/

/-- Componentwise `c.Min ≤ p ≤ c.Max`. -/
def Within (c : Constraints) (p : Point) : Prop :=
  c.Min.X ≤ p.X ∧ p.X ≤ c.Max.X ∧ c.Min.Y ≤ p.Y ∧ p.Y ≤ c.Max.Y

/-- Membership in a constraint box is decidable. -/
instance Within.decidable (c : Constraints) (p : Point) : Decidable (Within c p) := by
  unfold Within; infer_instance

/-- The title row as `Foldable.Layout` lays it out: the call
`f.Closed.Layout(gtx, func...)`, giving the measured title, the toggle after the clicks of
this frame, and the sink. -/
def Foldable.titleRow (f : Foldable) (ev : Clicks) (win : Window) (gtx : Context) (ops : Ops) :
    Dimensions × WidgetBool × Ops :=
  f.Closed.Layout ev gtx (Foldable.Layout.func1 f win) ops

/-- The constraints that `Foldable.Layout` hands to the title label: the incoming ones
with `Min.Y = 0`. -/
def Foldable.titleConstraints (c : Constraints) : Constraints :=
  { c with Min := { c.Min with Y := 0 } }

/-- The context that `Foldable.Layout` hands to the contents below a title of height
`th`: the incoming one with `Max.Y` reduced by `th`. -/
def Foldable.contentContext (gtx : Context) (th : Int) : Context :=
  { gtx with
    Constraints := { gtx.Constraints with
      Max := { gtx.Constraints.Max with Y := gtx.Constraints.Max.Y - th } } }

/-- The world that `Foldable.Layout` hands to the contents: the sink after the title row
and the push of the offset `(0, th)`. -/
def Foldable.contentWorld {π : Type} (world : World π) (titleOps : Ops) (th : Int) : World π :=
  { world with ops := titleOps ++ [Op.OffsetPush (imagePt 0 th)] }

/-- An open foldable with the title "trace". -/
def openFoldable : Foldable := { Title := "trace", Closed := { Value := false } }

/-- A closed foldable with the title "trace". -/
def closedFoldable : Foldable := { Title := "trace", Closed := { Value := true } }

/-- A world with an empty sink and the invocation counter at 0. -/
def emptyWorld : World Nat := { ops := [], user := 0 }

/-- Go `int(math.Round(float64(v)))` of a finite `v`: the nearest integer, halves away
from zero. -/
def F32.roundToInt : F32 → Int
  | .fin s m e =>
    let r : Nat :=
      if 0 ≤ e then m * 2 ^ e.toNat else (2 * m + 2 ^ (-e).toNat) / 2 ^ ((-e).toNat + 1)
    if s then -(r : Int) else (r : Int)
  | _ => 0

/-- The metric `unit.Metric{PxPerDp: 1, PxPerSp: 1}`: one device pixel per dp and per sp. -/
def unitMetric : Metric := { Dp := F32.roundToInt, SpToDp := fun v => v }

/-- A shaper that measures every label as `d`. -/
def fixedShaper (d : Dimensions) : Shaper := { measure := fun _ _ _ _ _ => d }

/-- A window whose theme is `NewTheme` over `fixedShaper d`. -/
def sampleWindow (d : Dimensions) : Window := { Theme := NewTheme (fixedShaper d) }

/-- A layout context with the given constraints and the metric `unitMetric`. -/
def sampleContext (min max : Point) : Context :=
  { Constraints := { Min := min, Max := max }, Metric := unitMetric }

/-- A probe widget: it reports the size `d` and counts its invocations in the user state. -/
def probe (d : Point) : Widget Nat :=
  fun _ _ world => ({ Size := d }, { world with user := world.user + 1 })

/-- The float32 value 0.5. -/
def F32.half : F32 := .fin false 1 (-1)

/-! ## Colour decoding -/

/-- Each channel of `rgba c` is the corresponding byte of `c`. -/
theorem rgba_channels (c : Nat) :
    (rgba c).R = c / 2 ^ 24 % 2 ^ 8 ∧ (rgba c).G = c / 2 ^ 16 % 2 ^ 8 ∧
      (rgba c).B = c / 2 ^ 8 % 2 ^ 8 ∧ (rgba c).A = c % 2 ^ 8 := by
  have hmask : ∀ x : Nat, x &&& 0xFF = x % 2 ^ 8 := fun x =>
    Nat.and_pow_two_sub_one_eq_mod x 8
  simp [rgba, uint8, hmask, Nat.shiftRight_eq_div_pow]

/-- Packing four bytes with shifts and ors is the base-256 sum. -/
theorem pack_bytes (k : NRGBA) (hG : k.G < 2 ^ 8) (hB : k.B < 2 ^ 8) (hA : k.A < 2 ^ 8) :
    pack k = k.R * 2 ^ 24 + k.G * 2 ^ 16 + k.B * 2 ^ 8 + k.A := by
  have h1 : 2 ^ 24 * k.R + k.G * 2 ^ 16 = 2 ^ 24 * k.R ||| k.G * 2 ^ 16 :=
    Nat.mul_add_lt_is_or (by omega) _
  have h2 : 2 ^ 16 * (k.R * 2 ^ 8 + k.G) + k.B * 2 ^ 8
      = 2 ^ 16 * (k.R * 2 ^ 8 + k.G) ||| k.B * 2 ^ 8 :=
    Nat.mul_add_lt_is_or (by omega) _
  have h3 : 2 ^ 8 * (k.R * 2 ^ 16 + k.G * 2 ^ 8 + k.B) + k.A
      = 2 ^ 8 * (k.R * 2 ^ 16 + k.G * 2 ^ 8 + k.B) ||| k.A :=
    Nat.mul_add_lt_is_or hA _
  have e1 : k.R * 2 ^ 24 ||| k.G * 2 ^ 16 = 2 ^ 16 * (k.R * 2 ^ 8 + k.G) := by
    rw [show k.R * 2 ^ 24 = 2 ^ 24 * k.R by omega, ← h1]; omega
  have e2 : 2 ^ 16 * (k.R * 2 ^ 8 + k.G) ||| k.B * 2 ^ 8
      = 2 ^ 8 * (k.R * 2 ^ 16 + k.G * 2 ^ 8 + k.B) := by
    rw [← h2]; omega
  unfold pack
  simp only [Nat.shiftLeft_eq]
  rw [e1, e2, ← h3]; omega

/-- Re-packing the channels of `rgba c` gives back the 32-bit word `c`. -/
theorem pack_rgba (c : Nat) (hc : c < 2 ^ 32) : pack (rgba c) = c := by
  obtain ⟨hR, hG, hB, hA⟩ := rgba_channels c
  rw [pack_bytes (rgba c) (by rw [hG]; exact Nat.mod_lt _ (by norm_num))
    (by rw [hB]; exact Nat.mod_lt _ (by norm_num))
    (by rw [hA]; exact Nat.mod_lt _ (by norm_num)), hR, hG, hB, hA]
  omega

/-- C10: for every 32-bit word `c`, `rgba c` reads `c` as 0xRRGGBBAA (R is bits 31..24,
G bits 23..16, B bits 15..8, A bits 7..0), re-packing `R<<24 | G<<16 | B<<8 | A` gives back
`c`, so `rgba` is injective on 32-bit words, and every colour of `DefaultPalette` has
`A = 255`. -/
theorem rgba_reads_RRGGBBAA (c : Nat) (hc : c < 2 ^ 32) :
    (rgba c).R = c / 2 ^ 24 % 2 ^ 8 ∧ (rgba c).G = c / 2 ^ 16 % 2 ^ 8 ∧
      (rgba c).B = c / 2 ^ 8 % 2 ^ 8 ∧ (rgba c).A = c % 2 ^ 8 ∧
      pack (rgba c) = c ∧
      (∀ d : Nat, d < 2 ^ 32 → rgba d = rgba c → d = c) ∧
      (∀ k ∈ DefaultPalette.colors, k.A = 255) := by
  obtain ⟨hR, hG, hB, hA⟩ := rgba_channels c
  refine ⟨hR, hG, hB, hA, pack_rgba c hc, ?_, ?_⟩
  · intro d hd hdc
    rw [← pack_rgba d hd, hdc, pack_rgba c hc]
  · decide

/-- C10 at the word 0x478847FF, the foreground colour of the progress bar. -/
theorem rgba_reads_RRGGBBAA_witness :
    (0x478847FF : Nat) < 2 ^ 32 ∧ (rgba 0x478847FF).R = 0x478847FF / 2 ^ 24 % 2 ^ 8 ∧
      pack (rgba 0x478847FF) = 0x478847FF :=
  ⟨by decide, (rgba_reads_RRGGBBAA 0x478847FF (by decide)).1,
    (rgba_reads_RRGGBBAA 0x478847FF (by decide)).2.2.2.2.1⟩

/-! ## frect -/

/-- C7: for every rectangle, degenerate or not, `frect.IntoPath` adds exactly the five
commands MoveTo(Min), LineTo(Max.X, Min.Y), LineTo(Max), LineTo(Min.X, Max.Y), LineTo(Min)
to the path, so the outline built by `frect.Path` has five commands and ends at the
point where it starts. -/
theorem frect_IntoPath_closed (r : frect) (p : Path) :
    (r.IntoPath p).cmds = p.cmds ++
        [PathCmd.MoveTo r.Min, PathCmd.LineTo (f32Pt r.Max.X r.Min.Y), PathCmd.LineTo r.Max,
          PathCmd.LineTo (f32Pt r.Min.X r.Max.Y), PathCmd.LineTo r.Min] ∧
      r.Path.cmds.length = 5 ∧
      r.Path.cmds.map PathCmd.target =
        [r.Min, { X := r.Max.X, Y := r.Min.Y }, r.Max, { X := r.Min.X, Y := r.Max.Y }, r.Min] ∧
      (r.Path.cmds.getLast?).map PathCmd.target = (r.Path.cmds.head?).map PathCmd.target := by
  simp [frect.IntoPath, frect.Path, Path.MoveTo, Path.LineTo, PathCmd.target, f32Pt]

/-! ## Button -/

/-- C8: the background layer of `ButtonStyle.Layout` adds one fill of the box
`(0,0)-(Min)`, in the colour of 0xFFFF00FF (R=255, G=255, B=0, A=255) if and only if
the button is pressed and otherwise in the colour of 0xFFFFFFFF (R=G=B=A=255); the label
layer sets the colour of 0x000000FF (R=G=B=0, A=255) in both states. -/
theorem ButtonStyle_Layout_colors (b : ButtonStyle) (win : Window) (gtx : Context)
    (ops : Ops) :
    (ButtonStyle.Layout.func1_1_1 b gtx ops).2 = ops ++
        [Op.FillShape (if b.Button.Pressed then rgba 0xFFFF00FF else rgba 0xFFFFFFFF)
          (ClipOp.Rect { X := 0, Y := 0 } gtx.Constraints.Min)] ∧
      ((if b.Button.Pressed then rgba 0xFFFF00FF else rgba 0xFFFFFFFF) = rgba 0xFFFF00FF ↔
        b.Button.Pressed = true) ∧
      rgba 0xFFFF00FF = { R := 255, G := 255, B := 0, A := 255 } ∧
      rgba 0xFFFFFFFF = { R := 255, G := 255, B := 255, A := 255 } ∧
      rgba 0x000000FF = { R := 0, G := 0, B := 0, A := 255 } ∧
      (ButtonStyle.Layout.func1_1_2 b win gtx ops).2 =
        ops ++ [Op.ColorOp (rgba 0x000000FF), Op.Text b.Text] := by
  refine ⟨?_, ?_, by decide, by decide, by decide, ?_⟩
  · cases h : b.Button.Pressed <;> simp [ButtonStyle.Layout.func1_1_1, h, ClipRect.Op]
  · cases h : b.Button.Pressed
    · simp only [Bool.false_eq_true, if_false, iff_false]; decide
    · simp
  · simp [ButtonStyle.Layout.func1_1_2, Label.Layout]

/-! ## BorderedText -/

/-- C4: for every string and every constraints the function that `BorderedText` hands
to the border wrapper reports the size (label width + 2*padding, label height +
2*padding) and the label's baseline, where padding is `WindowPadding` in device pixels;
between the clip push and pop it adds the background fill of exactly (0,0)-(that size),
and after it the recorded label, replayed once inside an offset of (padding, padding). -/
theorem BorderedText_content (win : Window) (s : String) (gtx : Context) (ops : Ops) :
    let label := win.Theme.Shaper.measure {} {} win.Theme.TextSize s
      { Min := { X := 0, Y := 0 }, Max := gtx.Constraints.Max }
    let padding := gtx.Metric.Dp win.Theme.WindowPadding
    let size : Point := { X := label.Size.X + 2 * padding, Y := label.Size.Y + 2 * padding }
    BorderedText.func1 win s gtx ops =
      ({ Size := size, Baseline := label.Baseline },
        ops ++
          [Op.ClipPush (ClipOp.Rect { X := 0, Y := 0 } gtx.Constraints.Max),
            Op.FillShape win.Theme.Palette.WindowBackground
              (ClipOp.Rect { X := 0, Y := 0 } size),
            Op.OffsetPush { X := padding, Y := padding },
            Op.Call [Op.ColorOp win.Theme.Palette.Foreground, Op.Text s],
            Op.OffsetPop,
            Op.ClipPop]) := by
  simp [BorderedText.func1, Label.Layout, ClipRect.Op, imagePt, Context.Dp]

/-! ## float32 arithmetic -/

namespace F32

/-- A number is below two to the power of its digit count. -/
theorem bitLenAux_lt (fuel : Nat) : ∀ n : Nat, n ≤ fuel → n < 2 ^ bitLenAux fuel n := by
  induction fuel with
  | zero => intro n hn; simp [bitLenAux]; omega
  | succ fuel ih =>
    intro n hn
    unfold bitLenAux
    by_cases h0 : n = 0
    · simp [h0]
    · rw [if_neg h0]
      have := ih (n / 2) (by omega)
      rw [pow_succ]; omega

/-- A positive number reaches two to the power of its digit count less one. -/
theorem bitLenAux_ge (fuel : Nat) : ∀ n : Nat, n ≤ fuel → 0 < n →
    2 ^ (bitLenAux fuel n - 1) ≤ n := by
  induction fuel with
  | zero => intro n hn h; omega
  | succ fuel ih =>
    intro n hn hpos
    unfold bitLenAux
    rw [if_neg (by omega)]
    simp only [Nat.add_sub_cancel]
    by_cases h1 : n / 2 = 0
    · have : bitLenAux fuel (n / 2) = 0 := by
        rw [h1]; cases fuel <;> simp [bitLenAux]
      rw [this]; simpa using hpos
    · have := ih (n / 2) (by omega) (by omega)
      have hb : 0 < bitLenAux fuel (n / 2) := by
        cases fuel with
        | zero => omega
        | succ f => unfold bitLenAux; rw [if_neg h1]; omega
      have e : bitLenAux fuel (n / 2) = (bitLenAux fuel (n / 2) - 1) + 1 := by omega
      rw [e, pow_succ]; omega

/-- Upper bound of a number by its digit count. -/
theorem bitLen_lt (n : Nat) : n < 2 ^ bitLen n := bitLenAux_lt n n le_rfl

/-- Lower bound of a positive number by its digit count. -/
theorem bitLen_ge (n : Nat) (h : 0 < n) : 2 ^ (bitLen n - 1) ≤ n := bitLenAux_ge n n le_rfl h

/-- A positive number has at least one digit. -/
theorem bitLen_pos (n : Nat) (h : 0 < n) : 0 < bitLen n := by
  by_contra h0
  have := bitLen_lt n
  have e : bitLen n = 0 := by omega
  rw [e] at this; omega

/-- A number below `2^k` has at most `k` digits. -/
theorem bitLen_le_of_lt (n k : Nat) (h : n < 2 ^ k) : bitLen n ≤ k := by
  by_contra hc
  rcases Nat.eq_zero_or_pos n with h0 | hpos
  · subst h0; simp [bitLen, bitLenAux] at hc
  · have h1 := bitLen_ge n hpos
    have : 2 ^ k ≤ 2 ^ (bitLen n - 1) := Nat.pow_le_pow_right (by norm_num) (by omega)
    omega

/-- A number in `[2^k, 2^(k+1))` has `k + 1` digits. -/
theorem bitLen_eq (n k : Nat) (hlo : 2 ^ k ≤ n) (hhi : n < 2 ^ (k + 1)) : bitLen n = k + 1 := by
  have h1 := bitLen_le_of_lt n (k + 1) hhi
  have h2 := bitLen_lt n
  by_contra hc
  have : 2 ^ bitLen n ≤ 2 ^ k := Nat.pow_le_pow_right (by norm_num) (by omega)
  omega

end F32

/-! ## clamp1 -/

/-- On values other than NaN the order `<=` is total. -/
theorem F32.le_total (a b : F32) (ha : a ≠ .nan) (hb : b ≠ .nan)
    (h : F32.le a b = false) : F32.le b a = true := by
  cases a with
  | nan => exact absurd rfl ha
  | inf s =>
    cases b with
    | nan => exact absurd rfl hb
    | inf t => cases s <;> cases t <;> simp_all [F32.le]
    | fin t n k => cases s <;> simp_all [F32.le]
  | fin s m e =>
    cases b with
    | nan => exact absurd rfl hb
    | inf t => cases t <;> simp_all [F32.le]
    | fin t n k =>
      simp only [F32.le, decide_eq_false_iff_not, decide_eq_true_eq, not_le] at h ⊢
      rw [min_comm k e]
      exact le_of_lt h

/-- Two values that are `<=` each other are `==`. -/
theorem F32.eq_of_le_of_le (a b : F32) (h1 : F32.le a b = true) (h2 : F32.le b a = true) :
    F32.eq a b = true := by
  cases a with
  | nan => simp [F32.le] at h1
  | inf s =>
    cases b with
    | nan => simp [F32.le] at h1
    | inf t => cases s <;> cases t <;> simp_all [F32.le, F32.eq]
    | fin t n k => cases s <;> simp_all [F32.le]
  | fin s m e =>
    cases b with
    | nan => simp [F32.le] at h1
    | inf t => cases t <;> simp_all [F32.le]
    | fin t n k =>
      simp only [F32.le, F32.eq, decide_eq_true_eq] at h1 h2 ⊢
      rw [min_comm k e] at h2
      exact le_antisymm h1 h2

/-- Every value other than NaN is `==` to itself. -/
theorem F32.eq_self (a : F32) (ha : a ≠ .nan) : F32.eq a a = true := by
  cases a with
  | nan => exact absurd rfl ha
  | inf s => simp [F32.eq]
  | fin s m e => simp [F32.eq]

/-- No value is both `>= 1` and `<= 0`. -/
theorem F32.not_ge_one_and_le_zero (v : F32) (h1 : F32.le F32.one v = true)
    (h0 : F32.le v F32.zero = true) : False := by
  cases v with
  | nan => simp [F32.le, F32.one] at h1
  | inf s => cases s <;> simp_all [F32.le, F32.one, F32.zero]
  | fin s m e =>
    simp only [F32.le, F32.one, F32.zero, F32.scaled, decide_eq_true_eq] at h1 h0
    rw [min_comm e 0] at h0
    have hpos : (0 : Int) < 2 ^ (0 - min 0 e).toNat := by positivity
    simp only [Bool.false_eq_true, if_false, Nat.cast_one, one_mul, Nat.cast_zero,
      zero_mul] at h1 h0
    omega

/-- On every input other than NaN `clamp1` does what its comment says: the result is in
[0, 1], it is `==` to the input when the input is in [0, 1], it is 1 when the input is
`>= 1` and 0 when the input is `<= 0`. -/
theorem clamp1_of_ne_nan (v : F32) (hv : v ≠ .nan) :
    F32.le F32.zero (clamp1 v) = true ∧ F32.le (clamp1 v) F32.one = true ∧
      (F32.le F32.zero v = true → F32.le v F32.one = true → F32.eq (clamp1 v) v = true) ∧
      (F32.ge v F32.one = true → clamp1 v = F32.one) ∧
      (F32.le v F32.zero = true → clamp1 v = F32.zero) := by
  unfold clamp1
  by_cases h1 : F32.ge v F32.one = true
  · rw [if_pos h1]
    refine ⟨by decide, by decide, ?_, fun _ => rfl, ?_⟩
    · intro _ hle
      exact F32.eq_of_le_of_le _ _ h1 hle
    · intro hle
      exact absurd hle (fun h => F32.not_ge_one_and_le_zero v h1 h)
  · rw [if_neg h1]
    by_cases h0 : F32.le v F32.zero = true
    · rw [if_pos h0]
      refine ⟨by decide, by decide, ?_, fun h => absurd h h1, fun _ => rfl⟩
      intro hz _
      exact F32.eq_of_le_of_le _ _ hz h0
    · rw [if_neg h0]
      have h1f : F32.le F32.one v = false := by simpa [F32.ge] using h1
      have h0f : F32.le v F32.zero = false := by simpa using h0
      refine ⟨F32.le_total _ _ hv (by decide) h0f, F32.le_total _ _ (by decide) hv h1f, ?_,
        fun h => absurd h h1, fun h => absurd h h0⟩
      intro _ _
      exact F32.eq_self v hv

/-- C9, at the input NaN: `clamp1` returns NaN, which is neither `>= 0` nor `<= 1`, so
the result is outside the range [0..1] that the comment of `clamp1` promises. -/
theorem clamp1_nan_escapes :
    clamp1 F32.nan = F32.nan ∧ F32.le F32.zero (clamp1 F32.nan) = false ∧
      F32.le (clamp1 F32.nan) F32.one = false := by
  decide

/-! ## float32 rounding -/

namespace F32

/-- Rounding a quotient moves it up by at most one. -/
theorem shiftRNE_bounds (m k : Nat) :
    m / 2 ^ k ≤ shiftRNE m k ∧ shiftRNE m k ≤ m / 2 ^ k + 1 := by
  unfold shiftRNE
  simp only
  split_ifs <;> omega

/-- The conversion of a natural number below `2^64`: exact when it has at most 24 digits,
and otherwise a 24-digit significand (possibly carried to `2^24`) with a positive exponent. -/
theorem round_nat (neg : Bool) (m : Nat) (hm : m < 2 ^ 64) :
    round neg m 0 = .fin neg m 0 ∨
      ∃ (q : Int) (m1 : Nat), 0 < q ∧ q ≤ 40 ∧ 2 ^ 23 ≤ m1 ∧ m1 ≤ 2 ^ 24 ∧
        round neg m 0 = .fin neg m1 q := by
  by_cases h0 : m = 0
  · left; simp [round, h0]
  · have hpos : 0 < m := Nat.pos_of_ne_zero h0
    have hb := bitLen_le_of_lt m 64 hm
    have hb1 := bitLen_pos m hpos
    by_cases h24 : bitLen m ≤ 24
    · left
      have hq : (if (0 : Int) + bitLen m - 24 ≥ -149 then (0 : Int) + bitLen m - 24 else -149)
          = (bitLen m : Int) - 24 := by
        rw [if_pos (by omega)]; omega
      unfold round
      simp only [h0, if_false, hq]
      rw [if_pos (by omega), if_pos (by omega)]
    · right
      refine ⟨(bitLen m : Int) - 24, shiftRNE m (bitLen m - 24), by omega, by omega, ?_, ?_, ?_⟩
      · have h1 := (shiftRNE_bounds m (bitLen m - 24)).1
        have h2 := bitLen_ge m hpos
        have : 2 ^ 23 ≤ m / 2 ^ (bitLen m - 24) := by
          rw [Nat.le_div_iff_mul_le (by positivity), ← pow_add]
          rw [show 23 + (bitLen m - 24) = bitLen m - 1 by omega]
          exact h2
        omega
      · have h1 := (shiftRNE_bounds m (bitLen m - 24)).2
        have h2 := bitLen_lt m
        have : m / 2 ^ (bitLen m - 24) < 2 ^ 24 := by
          rw [Nat.div_lt_iff_lt_mul (by positivity), ← pow_add]
          rw [show 24 + (bitLen m - 24) = bitLen m by omega]
          exact h2
        omega
      · have hq : (if (0 : Int) + bitLen m - 24 ≥ -149 then (0 : Int) + bitLen m - 24
            else -149) = (bitLen m : Int) - 24 := by
          rw [if_pos (by omega)]; omega
        unfold round
        simp only [h0, if_false, hq]
        rw [if_neg (by omega), if_neg (by omega)]
        congr 2
        omega

/-- Rounding a value that already has a 24-digit significand gives the same value. -/
theorem round_normal (neg : Bool) (m1 : Nat) (q : Int) (hlo : 2 ^ 23 ≤ m1)
    (hhi : m1 ≤ 2 ^ 24) (hq0 : 0 < q) (hq : q ≤ 40) :
    F32.eq (round neg m1 q) (.fin neg m1 q) = true := by
  have h0 : ¬ m1 = 0 := by omega
  by_cases hc : m1 = 2 ^ 24
  · subst hc
    have hb : bitLen (2 ^ 24) = 25 := by decide
    have hq1 : (if q + ((25 : Nat) : Int) - 24 ≥ -149 then q + ((25 : Nat) : Int) - 24 else -149)
        = q + 1 := by
      rw [if_pos (by omega)]; omega
    unfold round
    simp only [h0, if_false, hb, hq1]
    rw [if_neg (by omega), if_neg (by omega)]
    have hs : (q + 1 - q).toNat = 1 := by omega
    rw [hs]
    have hr : shiftRNE (2 ^ 24) 1 = 2 ^ 23 := by decide
    rw [hr]
    simp only [F32.eq, scaled, decide_eq_true_eq]
    rw [min_eq_right (by omega)]
    have e1 : (q + 1 - q).toNat = 1 := by omega
    have e2 : (q - q).toNat = 0 := by omega
    rw [e1, e2]
    cases neg <;> simp
  · have hb : bitLen m1 = 24 := bitLen_eq m1 23 hlo (by omega)
    have hq1 : (if q + ((24 : Nat) : Int) - 24 ≥ -149 then q + ((24 : Nat) : Int) - 24 else -149)
        = q := by
      rw [if_pos (by omega)]; omega
    unfold round
    simp only [h0, if_false, hb, hq1]
    rw [if_pos le_rfl, if_pos (by omega)]
    exact eq_self _ (by simp)

/-- Multiplying the conversion of a 64-bit integer by 1 gives the same value. -/
theorem ofInt_mul_one (w : Int) (hlo : -2 ^ 63 ≤ w) (hhi : w < 2 ^ 63) :
    F32.eq (mul (ofInt w) one) (ofInt w) = true := by
  have hm : w.natAbs < 2 ^ 64 := by omega
  unfold ofInt
  rcases round_nat (decide (w < 0)) w.natAbs hm with h | ⟨q, m1, hq0, hq, h1, h2, h⟩
  · rw [h]
    simp only [mul, one, Bool.xor_false, Nat.mul_one, add_zero]
    rw [h]
    exact eq_self _ (by simp)
  · rw [h]
    simp only [mul, one, Bool.xor_false, Nat.mul_one, add_zero]
    exact round_normal _ m1 q h1 h2 hq0 hq

/-- The conversion of a 64-bit integer is finite. -/
theorem ofInt_finite (w : Int) (hlo : -2 ^ 63 ≤ w) (hhi : w < 2 ^ 63) :
    ∃ m e, ofInt w = .fin (decide (w < 0)) m e := by
  have hm : w.natAbs < 2 ^ 64 := by omega
  unfold ofInt
  rcases round_nat (decide (w < 0)) w.natAbs hm with h | ⟨q, m1, _, _, _, _, h⟩
  · exact ⟨_, _, h⟩
  · exact ⟨_, _, h⟩

/-- A value that is `== 0` is a finite value with significand 0. -/
theorem eq_zero_iff (p : F32) : F32.eq p zero = true ↔ ∃ t k, p = .fin t 0 k := by
  cases p with
  | nan => simp [F32.eq]
  | inf s => simp [F32.eq, zero]
  | fin t n k =>
    simp only [F32.eq, zero, scaled, decide_eq_true_eq, Bool.false_eq_true, if_false,
      Nat.cast_zero, zero_mul, mul_eq_zero, fin.injEq]
    constructor
    · intro h
      rcases h with h | h
      · refine ⟨t, k, rfl, ?_, rfl⟩
        cases t <;> simp_all
      · exact absurd h (by positivity)
    · rintro ⟨t1, k1, -, hn, -⟩
      left; subst hn; simp

/-- Multiplying the conversion of a 64-bit integer by a zero gives a zero. -/
theorem ofInt_mul_zero (w : Int) (hlo : -2 ^ 63 ≤ w) (hhi : w < 2 ^ 63) (p : F32)
    (hp : F32.eq p zero = true) : F32.eq (mul (ofInt w) p) zero = true := by
  obtain ⟨m, e, hw⟩ := ofInt_finite w hlo hhi
  obtain ⟨t, k, rfl⟩ := (eq_zero_iff p).1 hp
  rw [hw]
  simp only [mul, Nat.mul_zero, round, if_true]
  exact (eq_zero_iff _).2 ⟨_, _, rfl⟩

/-- Integers of magnitude below `2^24` convert exactly. -/
theorem ofInt_exact (w : Int) (h : w.natAbs < 2 ^ 24) :
    ofInt w = .fin (decide (w < 0)) w.natAbs 0 := by
  by_cases h0 : w.natAbs = 0
  · simp [ofInt, round, h0]
  · have hb := bitLen_le_of_lt _ 24 h
    have hq : (if (0 : Int) + bitLen w.natAbs - 24 ≥ -149 then (0 : Int) + bitLen w.natAbs - 24
        else -149) ≤ 0 := by
      split_ifs <;> omega
    unfold ofInt round
    simp only [h0, if_false]
    rw [if_pos hq, if_pos (by omega)]

end F32

/-! ## ProgressBar -/

/-- C5, at the box (3, 10) with progress 0.5, which lies in [0, 1]: the foreground
rectangle has width 1.5; this is no whole number of pixels, and in particular not
round(3 * 0.5) = 2. Also, at the box (16777217, 10) with progress 1 the width is
float32(16777217) = 16777216, which is not w. -/
theorem ProgressBarStyle_fg_width_not_rounded :
    F32.le F32.zero F32.half = true ∧ F32.le F32.half F32.one = true ∧
      ((ProgressBar (NewTheme (fixedShaper { Size := { X := 0, Y := 0 } })) F32.half).fg
        (sampleContext { X := 3, Y := 10 } { X := 3, Y := 10 })).Max.X = .fin false 3 (-1) ∧
      F32.isInteger (.fin false 3 (-1)) = false ∧
      F32.eq (.fin false 3 (-1)) (F32.ofInt 2) = false ∧
      F32.eq (.fin false 3 (-1)) (F32.ofInt 1) = false ∧
      ((ProgressBar (NewTheme (fixedShaper { Size := { X := 0, Y := 0 } })) F32.one).fg
        (sampleContext { X := 16777217, Y := 10 } { X := 16777217, Y := 10 })).Max.X
          = .fin false 8388608 1 ∧
      F32.eq (.fin false 8388608 1) (.fin false 16777217 0) = false := by
  decide

/-- C5 as amended: for every minimum box (w, h) of 64-bit integers and every progress,
the function that `ProgressBarStyle.Layout` hands to the border wrapper fills the box
(0,0)-(w,h) with the background colour, then fills with the foreground colour the closed
outline of the rectangle from (0,0) to (float32(w)*progress, float32(h)): left-anchored,
of the float32 width float32(w)*progress, which is not rounded to whole pixels. The width
is `== 0` when the progress is `== 0` and `== float32(w)` when the progress is 1, and
float32(w) is w itself when |w| is below 2^24. -/
theorem ProgressBarStyle_fg_unrounded (p : ProgressBarStyle) (gtx : Context) (ops : Ops)
    (hlo : -2 ^ 63 ≤ gtx.Constraints.Min.X) (hhi : gtx.Constraints.Min.X < 2 ^ 63) :
    let w := gtx.Constraints.Min.X
    let h := gtx.Constraints.Min.Y
    let width := F32.mul (F32.ofInt w) p.Progress
    ProgressBarStyle.Layout.func1 p gtx ops =
        ({ Size := gtx.Constraints.Min },
          ops ++ [Op.FillShape p.BackgroundColor (ClipOp.Rect { X := 0, Y := 0 } { X := w, Y := h }),
            Op.FillShape p.ForegroundColor (ClipOp.Outline { cmds :=
              [PathCmd.MoveTo { X := F32.zero, Y := F32.zero },
                PathCmd.LineTo { X := width, Y := F32.zero },
                PathCmd.LineTo { X := width, Y := F32.ofInt h },
                PathCmd.LineTo { X := F32.zero, Y := F32.ofInt h },
                PathCmd.LineTo { X := F32.zero, Y := F32.zero }] })]) ∧
      (p.fg gtx).Min = { X := F32.zero, Y := F32.zero } ∧
      (p.fg gtx).Max = { X := width, Y := F32.ofInt h } ∧
      (F32.eq p.Progress F32.zero = true → F32.eq width F32.zero = true) ∧
      (p.Progress = F32.one → F32.eq width (F32.ofInt w) = true) ∧
      (w.natAbs < 2 ^ 24 → F32.ofInt w = .fin (decide (w < 0)) w.natAbs 0) := by
  refine ⟨?_, rfl, rfl, ?_, ?_, ?_⟩
  · simp [ProgressBarStyle.Layout.func1, ProgressBarStyle.fg, ClipRect.Op, frect.Op, frect.Path,
      frect.IntoPath, Path.MoveTo, Path.LineTo, f32Pt]
  · exact F32.ofInt_mul_zero _ hlo hhi _
  · intro h1
    simp only [h1]
    exact F32.ofInt_mul_one _ hlo hhi
  · exact F32.ofInt_exact _

/-- C5 as amended, at the box (3, 10) with progress 1: the width is `==` to float32(3). -/
theorem ProgressBarStyle_fg_unrounded_witness :
    F32.eq (F32.mul (F32.ofInt 3) F32.one) (F32.ofInt 3) = true :=
  (ProgressBarStyle_fg_unrounded
    (ProgressBar (NewTheme (fixedShaper { Size := { X := 0, Y := 0 } })) F32.one)
    (sampleContext { X := 3, Y := 10 } { X := 3, Y := 10 }) [] (by decide) (by decide)).2.2.2.2.1
    rfl

/-! ## CheckBox -/

/-- C6, at an indicator box of width 2 with one device pixel per dp and the toggle true:
the padding is 1 and the inset drawn is (1,1)-(1,1), which is empty: `w - p > p` fails. -/
theorem CheckBoxStyle_inset_empty_at_two :
    (CheckBoxStyle.Layout.func1_1_1 (CheckBox { Value := true } "x")
        (sampleContext { X := 2, Y := 2 } { X := 2, Y := 2 }) []).2 =
      [Op.FillShape (rgba 0) (ClipOp.Rect { X := 0, Y := 0 } { X := 2, Y := 2 }),
        Op.FillShape (rgba 0x000000FF) (ClipOp.Rect { X := 1, Y := 1 } { X := 1, Y := 1 })] ∧
      CheckBoxStyle.padding (sampleContext { X := 2, Y := 2 } { X := 2, Y := 2 }) = 1 ∧
      ¬ ((2 : Int) - CheckBoxStyle.padding (sampleContext { X := 2, Y := 2 } { X := 2, Y := 2 })
          > CheckBoxStyle.padding (sampleContext { X := 2, Y := 2 } { X := 2, Y := 2 })) := by
  exact ⟨rfl, by decide, by decide⟩

/-- C6 as amended: for every indicator box of width w >= 1 with the toggle true, the
function that `CheckBoxStyle.Layout` hands to the border wrapper fills the box with the
background colour and then fills the inset square (p,p)-(w-p,w-p) with the foreground
colour, where p = floor(w/4) when w >= 4 and p = gtx.Dp(1), one dp in device pixels, when
w < 4. The inset has non-zero size (w - p > p) for every w >= 4, and for w < 4 exactly
when 2 * gtx.Dp(1) < w. -/
theorem CheckBoxStyle_inset_square (c : CheckBoxStyle) (gtx : Context) (ops : Ops)
    (hon : c.Checkbox.Value = true) (hw : 1 ≤ gtx.Constraints.Min.X) :
    let w := gtx.Constraints.Min.X
    let p := if w < 4 then gtx.Dp (F32.ofInt 1) else w / 4
    CheckBoxStyle.Layout.func1_1_1 c gtx ops =
        ({ Size := gtx.Constraints.Min },
          ops ++ [Op.FillShape c.BackgroundColor
              (ClipOp.Rect { X := 0, Y := 0 } gtx.Constraints.Min),
            Op.FillShape c.ForegroundColor
              (ClipOp.Rect { X := p, Y := p } { X := w - p, Y := w - p })]) ∧
      (4 ≤ w → w - p > p) ∧
      (w < 4 → (w - p > p ↔ 2 * gtx.Dp (F32.ofInt 1) < w)) := by
  have hpad : CheckBoxStyle.padding gtx =
      if gtx.Constraints.Min.X < 4 then gtx.Dp (F32.ofInt 1) else gtx.Constraints.Min.X / 4 := by
    unfold CheckBoxStyle.padding
    simp only
    have htd : Int.tdiv gtx.Constraints.Min.X 4 = gtx.Constraints.Min.X / 4 :=
      Int.tdiv_eq_ediv (by omega) (by norm_num)
    rw [htd]
    split_ifs <;> omega
  refine ⟨?_, ?_, ?_⟩
  · simp [CheckBoxStyle.Layout.func1_1_1, hon, CheckBoxStyle.inset, hpad, ClipRect.Op, imagePt]
  · intro h4
    rw [if_neg (by omega)]
    omega
  · intro h4
    rw [if_pos h4]
    omega

/-- C6 as amended, at an indicator box of width 12 (the default text size at one pixel
per dp): the padding is 3 and the inset (3,3)-(9,9) has non-zero size. -/
theorem CheckBoxStyle_inset_square_witness :
    (12 : Int) - (if (12 : Int) < 4 then
        (sampleContext { X := 12, Y := 12 } { X := 12, Y := 12 }).Dp (F32.ofInt 1) else 12 / 4)
      > (if (12 : Int) < 4 then
        (sampleContext { X := 12, Y := 12 } { X := 12, Y := 12 }).Dp (F32.ofInt 1) else 12 / 4) :=
  (CheckBoxStyle_inset_square (CheckBox { Value := true } "x")
    (sampleContext { X := 12, Y := 12 } { X := 12, Y := 12 }) [] rfl (by decide)).2.1 (by decide)

/-! ## Foldable -/

/-- When the toggle is true after the title row, `Foldable.Layout` returns the title size
constrained to the incoming constraints and the world as the title row left it. -/
theorem Foldable.Layout_of_closed {π : Type} (f : Foldable) (ev : Clicks) (win : Window)
    (gtx : Context) (contents : Widget π) (world : World π)
    (h : (f.titleRow ev win gtx world.ops).2.1.Value = true) :
    Foldable.Layout f ev win gtx contents world =
      ({ Size := gtx.Constraints.Constrain (f.titleRow ev win gtx world.ops).1.Size },
        { f with Closed := (f.titleRow ev win gtx world.ops).2.1 },
        { ops := (f.titleRow ev win gtx world.ops).2.2, user := world.user }) := by
  unfold Foldable.titleRow at h ⊢
  unfold Foldable.Layout
  rcases ht : f.Closed.Layout ev gtx (Foldable.Layout.func1 f win) world.ops with ⟨d, c, o⟩
  rw [ht] at h
  simp only at h
  simp [h]

/-- When the toggle is false after the title row, `Foldable.Layout` lays out the contents
below the title and constrains the sum with the constraints it handed to the contents. -/
theorem Foldable.Layout_of_open {π : Type} (f : Foldable) (ev : Clicks) (win : Window)
    (gtx : Context) (contents : Widget π) (world : World π)
    (h : (f.titleRow ev win gtx world.ops).2.1.Value = false) :
    let t := f.titleRow ev win gtx world.ops
    let c := contents win (Foldable.contentContext gtx t.1.Size.Y)
      (Foldable.contentWorld world t.2.2 t.1.Size.Y)
    Foldable.Layout f ev win gtx contents world =
      ({ Size := (Foldable.contentContext gtx t.1.Size.Y).Constraints.Constrain
            { X := max t.1.Size.X c.1.Size.X, Y := t.1.Size.Y + c.1.Size.Y } },
        { f with Closed := t.2.1 },
        { ops := c.2.ops ++ [Op.OffsetPop], user := c.2.user }) := by
  unfold Foldable.titleRow at h ⊢
  unfold Foldable.Layout
  rcases ht : f.Closed.Layout ev gtx (Foldable.Layout.func1 f win) world.ops with ⟨d, c, o⟩
  rw [ht] at h
  simp only at h
  simp [h, Foldable.contentContext, Foldable.contentWorld, max]

/-- C1, at an open foldable in the box (0,0)-(100,100) whose title measures (50, 40) and
whose contents measure (50, 30): the size (max 50 50, 40 + 30) = (50, 70) lies within the
incoming constraints, yet `Foldable.Layout` reports (50, 60). The final `Constrain` uses
the constraints whose `Max.Y` was already reduced by the title height for the contents. -/
theorem Foldable_Layout_open_cuts_height :
    (openFoldable.titleRow {} (sampleWindow { Size := { X := 50, Y := 40 } })
        (sampleContext { X := 0, Y := 0 } { X := 100, Y := 100 }) emptyWorld.ops).1.Size
      = { X := 50, Y := 40 } ∧
    (openFoldable.titleRow {} (sampleWindow { Size := { X := 50, Y := 40 } })
        (sampleContext { X := 0, Y := 0 } { X := 100, Y := 100 }) emptyWorld.ops).2.1.Value
      = false ∧
    (probe { X := 50, Y := 30 } (sampleWindow { Size := { X := 50, Y := 40 } })
        (Foldable.contentContext (sampleContext { X := 0, Y := 0 } { X := 100, Y := 100 }) 40)
        (Foldable.contentWorld emptyWorld [] 40)).1.Size = { X := 50, Y := 30 } ∧
    Within (sampleContext { X := 0, Y := 0 } { X := 100, Y := 100 }).Constraints
      { X := Max.max 50 50, Y := 40 + 30 } ∧
    (Foldable.Layout openFoldable {} (sampleWindow { Size := { X := 50, Y := 40 } })
        (sampleContext { X := 0, Y := 0 } { X := 100, Y := 100 })
        (probe { X := 50, Y := 30 }) emptyWorld).1.Size = { X := 50, Y := 60 } := by
  refine ⟨rfl, rfl, rfl, by decide, rfl⟩

/-- C2: for incoming constraints with Min <= Max componentwise, if the title label
returns a size within the constraints it is handed (the incoming ones with Min.Y = 0) and,
when the foldable is open, the contents return a size within the constraints they are
handed (the incoming ones with Max.Y reduced by the title height), then the size that
`Foldable.Layout` returns lies within the incoming constraints, open or closed. -/
theorem Foldable_Layout_within {π : Type} (f : Foldable) (ev : Clicks) (win : Window)
    (gtx : Context) (contents : Widget π) (world : World π)
    (hX : gtx.Constraints.Min.X ≤ gtx.Constraints.Max.X)
    (hY : gtx.Constraints.Min.Y ≤ gtx.Constraints.Max.Y)
    (hTitle : Within (Foldable.titleConstraints gtx.Constraints)
      (f.titleRow ev win gtx world.ops).1.Size)
    (hContent : (f.titleRow ev win gtx world.ops).2.1.Value = false →
      Within (Foldable.contentContext gtx (f.titleRow ev win gtx world.ops).1.Size.Y).Constraints
        (contents win (Foldable.contentContext gtx (f.titleRow ev win gtx world.ops).1.Size.Y)
          (Foldable.contentWorld world (f.titleRow ev win gtx world.ops).2.2
            (f.titleRow ev win gtx world.ops).1.Size.Y)).1.Size) :
    Within gtx.Constraints (Foldable.Layout f ev win gtx contents world).1.Size := by
  cases h : (f.titleRow ev win gtx world.ops).2.1.Value
  · have hc := hContent h
    rw [Foldable.Layout_of_open f ev win gtx contents world h]
    simp only [Within, Foldable.titleConstraints, Foldable.contentContext,
      Constraints.Constrain, max] at hTitle hc ⊢
    split_ifs <;> (try dsimp only) <;> refine ⟨?_, ?_, ?_, ?_⟩ <;> omega
  · rw [Foldable.Layout_of_closed f ev win gtx contents world h]
    simp only [Within, Foldable.titleConstraints, Constraints.Constrain] at hTitle ⊢
    split_ifs <;> (try dsimp only) <;> refine ⟨?_, ?_, ?_, ?_⟩ <;> omega

/-- C2 at an open and at a closed foldable in the box (0,10)-(100,100) with a title of
(50, 40) and contents of (50, 30): the reported sizes lie within the box. -/
theorem Foldable_Layout_within_witness :
    Within (sampleContext { X := 0, Y := 10 } { X := 100, Y := 100 }).Constraints
        (Foldable.Layout openFoldable {} (sampleWindow { Size := { X := 50, Y := 40 } })
          (sampleContext { X := 0, Y := 10 } { X := 100, Y := 100 })
          (probe { X := 50, Y := 30 }) emptyWorld).1.Size ∧
      Within (sampleContext { X := 0, Y := 10 } { X := 100, Y := 100 }).Constraints
        (Foldable.Layout closedFoldable {} (sampleWindow { Size := { X := 50, Y := 40 } })
          (sampleContext { X := 0, Y := 10 } { X := 100, Y := 100 })
          (probe { X := 50, Y := 30 }) emptyWorld).1.Size :=
  ⟨Foldable_Layout_within openFoldable {} (sampleWindow { Size := { X := 50, Y := 40 } })
      (sampleContext { X := 0, Y := 10 } { X := 100, Y := 100 }) (probe { X := 50, Y := 30 })
      emptyWorld (by decide) (by decide) (by decide) (fun _ => by decide),
    Foldable_Layout_within closedFoldable {} (sampleWindow { Size := { X := 50, Y := 40 } })
      (sampleContext { X := 0, Y := 10 } { X := 100, Y := 100 }) (probe { X := 50, Y := 30 })
      emptyWorld (by decide) (by decide) (by decide) (fun h => absurd h (by decide))⟩

/-- C3: when the toggle is true once the title row has been laid out, `Foldable.Layout`
does not invoke the contents, whatever they are: the returned world is the one the title
row left, with the state of the contents untouched, and the reported size is the size of
the title row constrained to the incoming constraints. -/
theorem Foldable_Layout_closed_skips_contents {π : Type} (f : Foldable) (ev : Clicks)
    (win : Window) (gtx : Context) (contents : Widget π) (world : World π)
    (h : (f.titleRow ev win gtx world.ops).2.1.Value = true) :
    Foldable.Layout f ev win gtx contents world =
      ({ Size := gtx.Constraints.Constrain (f.titleRow ev win gtx world.ops).1.Size },
        { f with Closed := (f.titleRow ev win gtx world.ops).2.1 },
        { ops := (f.titleRow ev win gtx world.ops).2.2, user := world.user }) :=
  Foldable.Layout_of_closed f ev win gtx contents world h

/-- C3 at a closed foldable with the counting probe as contents: after the layout the
invocation counter is still 0 and the size is the title size (50, 40). -/
theorem Foldable_Layout_closed_skips_contents_witness :
    (Foldable.Layout closedFoldable {} (sampleWindow { Size := { X := 50, Y := 40 } })
        (sampleContext { X := 0, Y := 0 } { X := 100, Y := 100 })
        (probe { X := 50, Y := 30 }) emptyWorld).2.2.user = 0 ∧
      (Foldable.Layout closedFoldable {} (sampleWindow { Size := { X := 50, Y := 40 } })
        (sampleContext { X := 0, Y := 0 } { X := 100, Y := 100 })
        (probe { X := 50, Y := 30 }) emptyWorld).1.Size = { X := 50, Y := 40 } := by
  rw [Foldable_Layout_closed_skips_contents closedFoldable {}
    (sampleWindow { Size := { X := 50, Y := 40 } })
    (sampleContext { X := 0, Y := 0 } { X := 100, Y := 100 }) (probe { X := 50, Y := 30 })
    emptyWorld rfl]
  exact ⟨rfl, rfl⟩

end theme
